import Mathlib

/-!
Shallow embedding of `pycoingecko/asyncapi.py` (async CoinGecko API client).

The embedding covers:
 - the incremental UTF-8 stream decoder (`DecodingStreamReader`, lines 8-26),
 - the request executor `CoinGeckoAPI.__request` (lines 36-51) together with the
   retrying HTTP layer it is built on (aiohttp / aiohttp_retry, modelled by the
   behavior the spec describes: retry while the status is in the configured
   retryable set, up to the configured attempt count; connection errors and
   non-retryable statuses are returned/raised immediately),
 - the query builder `CoinGeckoAPI.__api_url_params` (lines 53-59),
 - representative endpoint methods: `ping`, `get_price`, `get_coins_list`,
   `get_global`, `get_global_decentralized_finance_defi`.

JSON bodies are opaque to the executor: `json.loads` is an external stdlib
function, passed in as an abstract `parse : String -> Except Unit Json`.
Python exceptions are modelled by the `PyError` type; `Except PyError` plays
the role of raised-vs-returned control flow.
-/

/-- Parsed JSON documents (the structured data `json.loads` returns). -/
inductive Json where
  | null
  | bool (b : Bool)
  | num (n : Int)
  | str (s : String)
  | arr (xs : List Json)
  | obj (fields : List (String × Json))

/-- Python exceptions that can escape `CoinGeckoAPI.__request` and the endpoint
methods in the embedded fragment. -/
inductive PyError where
  /-- aiohttp `ClientResponseError` raised by `response.raise_for_status()`. -/
  | clientResponseError (status : Nat)
  /-- Network-level failure raised by `session.get` before any response exists. -/
  | connectionError
  /-- The `json.decoder.JSONDecodeError` raised by `json.loads`. -/
  | jsonDecodeError
  /-- The `raise ValueError(content)` error carrying the parsed error body. -/
  | valueError (payload : Json)
  /-- Referencing the local variable `response` before it was assigned. -/
  | unboundLocalError
  /-- Referencing an undefined global name (the `elf` typo on line 122). -/
  | nameError
  /-- Subscripting a non-subscriptable object (a coroutine). -/
  | typeError

/-- Outcome of one HTTP GET attempt, as delivered by the network. -/
inductive Outcome where
  /-- The GET itself fails at the network level: no response object exists. -/
  | connErr
  /-- A response arrives, with its status code and (decoded) body text. -/
  | resp (status : Nat) (body : String)

/-- An HTTP response object (`aiohttp.ClientResponse`), as far as
`__request` uses it: its status and the text of its body. -/
structure Resp where
  status : Nat
  body : String

/-- The `response.content` byte stream: the body text plus a flag recording
whether the stream has already been drained by a read. -/
structure ContentStream where
  data : String
  drained : Bool

/-- One `DecodingStreamReader(stream=response.content).read()` call at the
granularity the executor sees: the first read returns the whole remaining
body, every later read returns the empty string (the stream is at EOF). -/
def streamReadAll (s : ContentStream) : String × ContentStream :=
  if s.drained then ("", s) else (s.data, { s with drained := true })

/-- Client configuration fixed by `CoinGeckoAPI.__init__` (lines 31-34). -/
structure CoinGeckoAPI where
  api_base_url : String
  request_timeout : Nat
  retry_attempts : Nat
  retry_statuses : List Nat

/-- The constructor values: timeout 120, `ExponentialRetry(attempts=5,
statuses=[502, 503, 504])`. -/
def CoinGeckoAPI.mkDefault (base : String) : CoinGeckoAPI :=
  { api_base_url := base, request_timeout := 120,
    retry_attempts := 5, retry_statuses := [502, 503, 504] }

/-- The retryable status set configured on line 34. -/
def defaultRetryStatuses : List Nat := [502, 503, 504]

/-- The attempt count configured on line 34. -/
def defaultAttempts : Nat := 5

/-- The retrying GET performed by `RetryClient` with `ExponentialRetry`
(line 37-39), modelled per the spec: make an attempt; if the response status
is in the retryable set and attempts remain, retry, otherwise return the
response; a network-level failure is raised immediately (no response object).
Returns the number of attempts actually made together with either the final
response or a connection failure. `i` is the index of the current attempt in
the abstract server behavior `server`. -/
def retryGet (server : Nat → Outcome) (statuses : List Nat) :
    Nat → Nat → Nat × Except Unit Resp
  | _, 0 => (0, Except.error ())
  | i, n + 1 =>
    match server i with
    | Outcome.connErr => (1, Except.error ())
    | Outcome.resp st body =>
      if st ∈ statuses ∧ 0 < n then
        let r := retryGet server statuses (i + 1) n
        (r.1 + 1, r.2)
      else
        (1, Except.ok ⟨st, body⟩)

/-- The `except Exception as e:` block of `__request` (lines 44-51), entered
with the original exception `orig` and the current state of
`response.content`: build a fresh `DecodingStreamReader`, read, parse; a
successful parse raises `ValueError(content)` (not caught by the inner
`except json.decoder.JSONDecodeError`, which only catches the parse failure);
a parse failure is swallowed by `pass` and the bare `raise` re-raises the
original exception. -/
def exceptHandler (parse : String → Except Unit Json) (stream : ContentStream)
    (orig : PyError) : Except PyError Json :=
  let r := streamReadAll stream
  match parse r.1 with
  | Except.ok content => Except.error (PyError.valueError content)
  | Except.error _ => Except.error orig

/-- The body of `__request` once a response object exists (lines 40-51):
`raise_for_status()` raises `ClientResponseError` when `400 <= status`
(entering the except block with the body still unread); otherwise the body is
drained through a `DecodingStreamReader` and parsed, a parse failure entering
the except block with the stream already drained. -/
def requestBody (parse : String → Except Unit Json) (resp : Resp) :
    Except PyError Json :=
  let stream0 : ContentStream := ⟨resp.body, false⟩
  if 400 ≤ resp.status then
    exceptHandler parse stream0 (PyError.clientResponseError resp.status)
  else
    let r := streamReadAll stream0
    match parse r.1 with
    | Except.ok content => Except.ok content
    | Except.error _ => exceptHandler parse r.2 PyError.jsonDecodeError

/-- Executor `CoinGeckoAPI.__request` (lines 36-51) for one URL, with the server's
behavior abstracted as `server : Nat → Outcome` (the outcome of the i-th
attempt). Returns the number of HTTP attempts made and the returned value or
raised exception. When `session.get` raises (connection failure), the except
block evaluates `response.content` with the local `response` never assigned,
so Python raises `UnboundLocalError`, which the inner handler (catching only
`json.decoder.JSONDecodeError`) does not catch. -/
def request (parse : String → Except Unit Json) (server : Nat → Outcome)
    (statuses : List Nat) (attempts : Nat) : Nat × Except PyError Json :=
  match retryGet server statuses 0 attempts with
  | (k, Except.error _) => (k, Except.error PyError.unboundLocalError)
  | (k, Except.ok resp) => (k, requestBody parse resp)

/-- Python `s[:-1]`: drop the last character (the trailing `&` on line 58). -/
def strDropLast (s : String) : String :=
  String.mk s.data.dropLast

/-- Builder `CoinGeckoAPI.__api_url_params` (lines 53-59): if `params` is non-empty,
append `?`, then `key=value&` for each pair in iteration order, then drop the
trailing `&`; an empty mapping leaves the URL unchanged. -/
def api_url_params (api_url : String) (params : List (String × String)) :
    String :=
  if params.isEmpty then api_url
  else
    strDropLast (params.foldl
      (fun acc p => acc ++ p.1 ++ "=" ++ p.2 ++ "&") (api_url ++ "?"))

/-- The `key1=value1&key2=value2&...` join described by the spec's
query-parameter construction rule, written from the spec's words for
comparison with `api_url_params`. -/
def joinPairs : List (String × String) → String
  | [] => ""
  | [p] => p.1 ++ "=" ++ p.2
  | p :: q :: rest => p.1 ++ "=" ++ p.2 ++ "&" ++ joinPairs (q :: rest)

/-- A Python argument that is either a string or a list of strings, the two
shapes `list_args_to_comma_separated` discriminates. -/
inductive PyArg where
  | str (s : String)
  | list (xs : List String)

/-- Modelled from the spec: the decorator `list_args_to_comma_separated` from
`pycoingecko/utils.py` is not present in the sources; per the spec (sections 1,
4.3 and 9) it converts list-valued arguments into comma-separated strings and
leaves other arguments unchanged. -/
def list_args_to_comma_separated : PyArg → String
  | PyArg.str s => s
  | PyArg.list xs => String.intercalate (",") xs

/-- Python `s.replace(' ', '')` as called on lines 73 and 75: with a
single-character pattern and empty replacement this removes every space. -/
def stripSpaces (s : String) : String :=
  String.mk (s.data.filter (fun c => c ≠ ' '))

/-- Python `kwargs[key] = value` on an insertion-ordered dict: an existing key
keeps its position and gets the new value, a new key is appended at the end. -/
def dictInsert (d : List (String × String)) (k v : String) :
    List (String × String) :=
  if d.any (fun p => p.1 = k) then
    d.map (fun p => if p.1 = k then (k, v) else p)
  else d ++ [(k, v)]

/-- The URL `get_price` builds (lines 69-79): strip spaces from the
(comma-joined) `ids` and `vs_currencies`, store both into `kwargs`, and append
the query string to `base ++ "simple/price"`. -/
def get_price_url (base : String) (ids vs_currencies : PyArg)
    (kwargs : List (String × String)) : String :=
  let ids2 := stripSpaces (list_args_to_comma_separated ids)
  let kwargs2 := dictInsert kwargs ("ids") ids2
  let vs2 := stripSpaces (list_args_to_comma_separated vs_currencies)
  let kwargs3 := dictInsert kwargs2 ("vs_currencies") vs2
  api_url_params (base ++ "simple/price") kwargs3

/-- Method `CoinGeckoAPI.get_price` (lines 69-81): build the URL and delegate to
`__request`. The server behavior is URL-dependent
(`server : String → Nat → Outcome`). -/
def get_price (parse : String → Except Unit Json)
    (server : String → Nat → Outcome) (base : String)
    (ids vs_currencies : PyArg) (kwargs : List (String × String)) :
    Except PyError Json :=
  (request parse (server (get_price_url base ids vs_currencies kwargs))
    defaultRetryStatuses defaultAttempts).2

/-- Method `CoinGeckoAPI.ping` (lines 62-66): format the URL and return the
executor's result unchanged. -/
def ping (parse : String → Except Unit Json)
    (server : String → Nat → Outcome) (base : String) : Except PyError Json :=
  (request parse (server (base ++ "ping")) defaultRetryStatuses
    defaultAttempts).2

/-- Python name resolution for a simple name: the names bound in the scope of
`get_coins_list` are `self`, `kwargs` and `api_url`; any other name raises
`NameError`. -/
def resolveName (bound : List String) (n : String) : Except PyError Unit :=
  if n ∈ bound then Except.ok () else Except.error PyError.nameError

/-- Method `CoinGeckoAPI.get_coins_list` (lines 116-122): builds the URL, then
line 122 reads `return await elf.__request(api_url)` — the name `elf` is
undefined, so evaluating it raises `NameError` before any request is made. -/
def get_coins_list (parse : String → Except Unit Json)
    (server : String → Nat → Outcome) (base : String)
    (kwargs : List (String × String)) : Except PyError Json :=
  let api_url := api_url_params (base ++ "coins/list") kwargs
  match resolveName ["self", "kwargs", "api_url"] ("elf") with
  | Except.error e => Except.error e
  | Except.ok _ =>
    (request parse (server api_url) defaultRetryStatuses defaultAttempts).2

/-- A Python value as used in `await self.__request(api_url)['data']`: either
an ordinary (JSON) value or a coroutine object produced by calling an async
function without awaiting it. The coroutine carries the result the wrapped
computation would produce once awaited. -/
inductive PyVal where
  | val (j : Json)
  | coroutine (r : Except PyError Json)

/-- Python subscription `v[key]`: a coroutine object is not subscriptable
(`TypeError`); an object value yields the entry under `key`. -/
def pySubscript (v : PyVal) (key : String) : Except PyError PyVal :=
  match v with
  | PyVal.coroutine _ => Except.error PyError.typeError
  | PyVal.val (Json.obj fields) =>
    match fields.lookup key with
    | some j => Except.ok (PyVal.val j)
    | none => Except.error PyError.typeError
  | PyVal.val _ => Except.error PyError.typeError

/-- Python `await v`: awaiting a coroutine yields its result (or raises what
the coroutine raises); awaiting a plain value raises `TypeError`. -/
def pyAwait (v : PyVal) : Except PyError Json :=
  match v with
  | PyVal.coroutine r => r
  | PyVal.val _ => Except.error PyError.typeError

/-- Method `CoinGeckoAPI.get_global` (lines 419-425). Line 425 reads
`return await self.__request(api_url)['data']`, which Python groups as
`await ((self.__request(api_url))['data'])`: the subscript applies to the
coroutine object returned by calling the async method, before any await. -/
def get_global (parse : String → Except Unit Json)
    (server : String → Nat → Outcome) (base : String)
    (kwargs : List (String × String)) : Except PyError Json :=
  let api_url := api_url_params (base ++ "global") kwargs
  match pySubscript
      (PyVal.coroutine
        (request parse (server api_url) defaultRetryStatuses
          defaultAttempts).2) "data" with
  | Except.error e => Except.error e
  | Except.ok v => pyAwait v

/-- Method `CoinGeckoAPI.get_global_decentralized_finance_defi` (lines 427-433), with
the same `await self.__request(api_url)['data']` shape on line 433. -/
def get_global_decentralized_finance_defi (parse : String → Except Unit Json)
    (server : String → Nat → Outcome) (base : String)
    (kwargs : List (String × String)) : Except PyError Json :=
  let api_url := api_url_params (base ++ "global/decentralized_finance_defi")
    kwargs
  match pySubscript
      (PyVal.coroutine
        (request parse (server api_url) defaultRetryStatuses
          defaultAttempts).2) "data" with
  | Except.error e => Except.error e
  | Except.ok v => pyAwait v

/-- UTF-8 encoding of one code point `n` (the byte sequences the network layer
delivers and Python's incremental UTF-8 decoder consumes). -/
def utf8EncodeChar (n : Nat) : List Nat :=
  if n < 0x80 then [n]
  else if n < 0x800 then
    [0xC0 + n / 0x40, 0x80 + n % 0x40]
  else if n < 0x10000 then
    [0xE0 + n / 0x1000, 0x80 + (n / 0x40) % 0x40, 0x80 + n % 0x40]
  else
    [0xF0 + n / 0x40000, 0x80 + (n / 0x1000) % 0x40,
      0x80 + (n / 0x40) % 0x40, 0x80 + n % 0x40]

/-- UTF-8 encoding of a text string, as a list of byte values. -/
def utf8Encode (s : String) : List Nat :=
  s.data.flatMap (fun c => utf8EncodeChar c.toNat)

/-- Number of bytes of the UTF-8 sequence introduced by lead byte `b`
(0 when `b` cannot start a sequence). -/
def utf8Need (b : Nat) : Nat :=
  if b < 0x80 then 1
  else if b < 0xC0 then 0
  else if b < 0xE0 then 2
  else if b < 0xF0 then 3
  else if b < 0xF8 then 4
  else 0

/-- Decode one complete UTF-8 sequence held in the decoder's buffer into its
code point; `none` on malformed input (bad continuation bytes, overlong forms,
surrogates, out-of-range values), where the strict-errors incremental decoder
raises `UnicodeDecodeError`. -/
def decodeComplete : List Nat → Option Nat
  | [b0] => if b0 < 0x80 then some b0 else none
  | [b0, b1] =>
    if (0x80 ≤ b1 ∧ b1 < 0xC0) ∧
        0x80 ≤ (b0 - 0xC0) * 0x40 + (b1 - 0x80) then
      some ((b0 - 0xC0) * 0x40 + (b1 - 0x80))
    else none
  | [b0, b1, b2] =>
    if (0x80 ≤ b1 ∧ b1 < 0xC0) ∧ (0x80 ≤ b2 ∧ b2 < 0xC0) ∧
        0x800 ≤ (b0 - 0xE0) * 0x1000 + (b1 - 0x80) * 0x40 + (b2 - 0x80) ∧
        ((b0 - 0xE0) * 0x1000 + (b1 - 0x80) * 0x40 + (b2 - 0x80) < 0xD800 ∨
          0xE000 ≤ (b0 - 0xE0) * 0x1000 + (b1 - 0x80) * 0x40 + (b2 - 0x80)) then
      some ((b0 - 0xE0) * 0x1000 + (b1 - 0x80) * 0x40 + (b2 - 0x80))
    else none
  | [b0, b1, b2, b3] =>
    if (0x80 ≤ b1 ∧ b1 < 0xC0) ∧ (0x80 ≤ b2 ∧ b2 < 0xC0) ∧
        (0x80 ≤ b3 ∧ b3 < 0xC0) ∧
        0x10000 ≤ (b0 - 0xF0) * 0x40000 + (b1 - 0x80) * 0x1000 +
          (b2 - 0x80) * 0x40 + (b3 - 0x80) ∧
        (b0 - 0xF0) * 0x40000 + (b1 - 0x80) * 0x1000 +
          (b2 - 0x80) * 0x40 + (b3 - 0x80) < 0x110000 then
      some ((b0 - 0xF0) * 0x40000 + (b1 - 0x80) * 0x1000 +
        (b2 - 0x80) * 0x40 + (b3 - 0x80))
    else none
  | _ => none

/-- One `decoder.decode(chunk)` call of the incremental UTF-8 decoder
(`codecs.getincrementaldecoder('utf-8')` inside `DecodingStreamReader`,
lines 15-23): `buf` is the decoder's carried state (the bytes of a
not-yet-complete sequence from earlier chunks). Bytes are consumed in order;
each completed sequence emits its character; a trailing incomplete sequence is
kept as the new state; `none` models a raised `UnicodeDecodeError`. -/
def feed : List Nat → List Nat → Option (List Char × List Nat)
  | [], buf => some ([], buf)
  | b :: rest, buf =>
    if utf8Need ((buf ++ [b]).headD 0) = 0 then none
    else if (buf ++ [b]).length = utf8Need ((buf ++ [b]).headD 0) then
      match decodeComplete (buf ++ [b]) with
      | none => none
      | some v => (feed rest []).map (fun p => (Char.ofNat v :: p.1, p.2))
    else feed rest (buf ++ [b])

/-! ## Theorems -/

theorem retryGet_resp_noretry (server : Nat → Outcome) (statuses : List Nat)
    (i n : Nat) (st : Nat) (body : String)
    (hs : server i = Outcome.resp st body) (h : st ∉ statuses) :
    retryGet server statuses i (n + 1) = (1, Except.ok ⟨st, body⟩) := by
  simp [retryGet, hs, h]

theorem retryGet_connErr (server : Nat → Outcome) (statuses : List Nat)
    (i n : Nat) (hs : server i = Outcome.connErr) :
    retryGet server statuses i (n + 1) = (1, Except.error ()) := by
  simp [retryGet, hs]

/-- C1: a non-retryable failing HTTP status (such as 404) whose body parses
as JSON makes exactly one attempt and raises `ValueError` carrying the parsed
error body, not the transport failure. -/
theorem request_nonretryable_json_error_payload
    (parse : String → Except Unit Json) (server : Nat → Outcome)
    (st : Nat) (body : String) (j : Json)
    (hs : server 0 = Outcome.resp st body) (h400 : 400 ≤ st)
    (hnr : st ∉ defaultRetryStatuses) (hp : parse body = Except.ok j) :
    request parse server defaultRetryStatuses defaultAttempts =
      (1, Except.error (PyError.valueError j)) := by
  have h4 : retryGet server defaultRetryStatuses 0 5 =
      (1, Except.ok ⟨st, body⟩) :=
    retryGet_resp_noretry server _ 0 4 st body hs hnr
  simp [request, defaultAttempts, h4, requestBody, exceptHandler,
    streamReadAll, hp, h400]

theorem request_nonretryable_json_error_payload_w :
    request
      (fun s => if s = "e404" then
        Except.ok (Json.obj [("error", Json.str ("not found"))])
        else Except.error ())
      (fun _ => Outcome.resp 404 "e404") defaultRetryStatuses defaultAttempts
      = (1, Except.error (PyError.valueError
          (Json.obj [("error", Json.str ("not found"))]))) :=
  request_nonretryable_json_error_payload _ _ 404 "e404"
    (Json.obj [("error", Json.str ("not found"))]) rfl (by decide) (by decide)
    (by simp)

/-- C2: a failing HTTP status (such as 500) whose body is not valid JSON
re-raises the original HTTP-layer exception unchanged; the secondary parse
failure is swallowed and no `ValueError` payload is raised. -/
theorem request_error_body_not_json_reraises_original
    (parse : String → Except Unit Json) (server : Nat → Outcome)
    (st : Nat) (body : String)
    (hs : server 0 = Outcome.resp st body) (h400 : 400 ≤ st)
    (hnr : st ∉ defaultRetryStatuses)
    (hp : parse body = Except.error ()) :
    request parse server defaultRetryStatuses defaultAttempts =
      (1, Except.error (PyError.clientResponseError st)) := by
  have h5 : retryGet server defaultRetryStatuses 0 5 =
      (1, Except.ok ⟨st, body⟩) :=
    retryGet_resp_noretry server _ 0 4 st body hs hnr
  simp [request, defaultAttempts, h5, requestBody, exceptHandler,
    streamReadAll, hp, h400]

theorem request_error_body_not_json_reraises_original_w :
    request (fun _ => Except.error ()) (fun _ => Outcome.resp 500 "oops")
      defaultRetryStatuses defaultAttempts
      = (1, Except.error (PyError.clientResponseError 500)) :=
  request_error_body_not_json_reraises_original _ _ 500 "oops" rfl
    (by decide) (by decide) rfl

/-- C3: when the GET itself fails at the network level, the code makes no
retry, but it does not propagate the original failure: the except block
evaluates `response.content` with the local `response` unbound, so the caller
sees `UnboundLocalError` in place of the connection error. This refutes the
claim's "without replacing it by a different exception" part (code bug: the
bare `raise` was clearly meant to re-raise the original failure). -/
theorem request_conn_error_raises_unbound_local
    (parse : String → Except Unit Json) (server : Nat → Outcome)
    (hs : server 0 = Outcome.connErr) :
    request parse server defaultRetryStatuses defaultAttempts =
      (1, Except.error PyError.unboundLocalError) ∧
    request parse server defaultRetryStatuses defaultAttempts ≠
      (1, Except.error PyError.connectionError) := by
  have h6 : retryGet server defaultRetryStatuses 0 5 = (1, Except.error ()) :=
    retryGet_connErr server _ 0 4 hs
  constructor
  · simp [request, defaultAttempts, h6]
  · simp [request, defaultAttempts, h6]

theorem request_conn_error_raises_unbound_local_w :
    request (fun _ => Except.error ()) (fun _ => Outcome.connErr)
      defaultRetryStatuses defaultAttempts
      = (1, Except.error PyError.unboundLocalError) ∧
    request (fun _ => Except.error ()) (fun _ => Outcome.connErr)
      defaultRetryStatuses defaultAttempts
      ≠ (1, Except.error PyError.connectionError) :=
  request_conn_error_raises_unbound_local _ _ rfl

/-- C10: on a response whose status passes the status check (below 400, in
particular 2xx) but whose body is not valid JSON, the secondary parse
re-reads the already-drained stream, gets empty input, fails, and is
suppressed: the caller sees the original `JSONDecodeError`, never a
`ValueError` payload. -/
theorem request_success_status_parse_error_original
    (parse : String → Except Unit Json) (server : Nat → Outcome)
    (st : Nat) (body : String)
    (hs : server 0 = Outcome.resp st body) (hok : st < 400)
    (hb : parse body = Except.error ())
    (he : parse ("") = Except.error ()) :
    request parse server defaultRetryStatuses defaultAttempts =
      (1, Except.error PyError.jsonDecodeError) ∧
    ∀ j : Json, request parse server defaultRetryStatuses defaultAttempts ≠
      (1, Except.error (PyError.valueError j)) := by
  have hnr : st ∉ defaultRetryStatuses := by
    simp only [defaultRetryStatuses, List.mem_cons, List.mem_singleton,
      List.not_mem_nil, or_false]
    omega
  have h7 : retryGet server defaultRetryStatuses 0 5 =
      (1, Except.ok ⟨st, body⟩) :=
    retryGet_resp_noretry server _ 0 4 st body hs hnr
  have hlt : ¬(400 ≤ st) := by omega
  have hmain : request parse server defaultRetryStatuses defaultAttempts =
      (1, Except.error PyError.jsonDecodeError) := by
    simp [request, defaultAttempts, h7, requestBody, exceptHandler,
      streamReadAll, hb, he, hlt]
  refine ⟨hmain, fun j hj => ?_⟩
  rw [hmain] at hj
  simp at hj

theorem request_success_status_parse_error_original_w :
    request (fun _ => Except.error ()) (fun _ => Outcome.resp 200 "oops")
      defaultRetryStatuses defaultAttempts
      = (1, Except.error PyError.jsonDecodeError) ∧
    ∀ j : Json, request (fun _ => Except.error ())
      (fun _ => Outcome.resp 200 "oops") defaultRetryStatuses defaultAttempts
      ≠ (1, Except.error (PyError.valueError j)) :=
  request_success_status_parse_error_original _ _ 200 "oops" rfl (by decide)
    rfl rfl

theorem retryGet_count_le (server : Nat → Outcome) (statuses : List Nat) :
    ∀ n i, (retryGet server statuses i n).1 ≤ n := by
  intro n
  induction n with
  | zero => intro i; simp [retryGet]
  | succ m ih =>
    intro i
    simp only [retryGet]
    cases server i with
    | connErr => simp
    | resp st body =>
      by_cases h : st ∈ statuses ∧ 0 < m
      · simp only [h, if_true]
        exact Nat.succ_le_succ (ih (i + 1))
      · simp only [h, if_false]
        omega

theorem retryGet_all_retryable (server : Nat → Outcome) (statuses : List Nat)
    (h : ∀ i, ∃ st body, server i = Outcome.resp st body ∧ st ∈ statuses) :
    ∀ n i, 0 < n → ∃ st body, st ∈ statuses ∧
      retryGet server statuses i n = (n, Except.ok ⟨st, body⟩) := by
  intro n
  induction n with
  | zero => intro i h0; omega
  | succ m ih =>
    intro i _
    obtain ⟨st, body, hsi, hmem⟩ := h i
    by_cases hm : 0 < m
    · obtain ⟨st2, body2, hmem2, hr⟩ := ih (i + 1) hm
      refine ⟨st2, body2, hmem2, ?_⟩
      simp only [retryGet, hsi]
      rw [if_pos ⟨hmem, hm⟩]
      simp [hr]
    · have hm0 : m = 0 := by omega
      subst hm0
      refine ⟨st, body, hmem, ?_⟩
      simp only [retryGet, hsi]
      rw [if_neg (by simp)]

theorem exceptHandler_isError (parse : String → Except Unit Json)
    (stream : ContentStream) (orig : PyError) :
    ∃ e, exceptHandler parse stream orig = Except.error e := by
  cases hp : parse (streamReadAll stream).1 with
  | ok c => exact ⟨PyError.valueError c, by simp [exceptHandler, hp]⟩
  | error u => exact ⟨orig, by simp [exceptHandler, hp]⟩

theorem request_fst (parse : String → Except Unit Json)
    (server : Nat → Outcome) (statuses : List Nat) (attempts : Nat) :
    (request parse server statuses attempts).1 =
      (retryGet server statuses 0 attempts).1 := by
  simp only [request]
  rcases hg : retryGet server statuses 0 attempts with ⟨k, r⟩
  cases r <;> simp

/-- C4: against a server answering every attempt with a retryable status
(502/503/504), the executor makes exactly 5 (= `retry_attempts`) HTTP
attempts and then fails; and for any server it never makes more than the
configured number of attempts. -/
theorem request_retry_bound
    (parse : String → Except Unit Json) (server : Nat → Outcome)
    (h : ∀ i, ∃ st body, server i = Outcome.resp st body ∧
      st ∈ defaultRetryStatuses) :
    (request parse server defaultRetryStatuses defaultAttempts).1 = 5 ∧
    (∃ e, (request parse server defaultRetryStatuses defaultAttempts).2 =
      Except.error e) ∧
    ∀ (p2 : String → Except Unit Json) (s2 : Nat → Outcome) (n : Nat),
      (request p2 s2 defaultRetryStatuses n).1 ≤ n := by
  obtain ⟨st, body, hmem, hr⟩ :=
    retryGet_all_retryable server _ h 5 0 (by decide)
  have hst400 : 400 ≤ st := by
    simp only [defaultRetryStatuses, List.mem_cons, List.mem_singleton,
      List.not_mem_nil, or_false] at hmem
    omega
  refine ⟨?_, ?_, ?_⟩
  · simp [request, defaultAttempts, hr]
  · obtain ⟨e, he⟩ := exceptHandler_isError parse ⟨body, false⟩
      (PyError.clientResponseError st)
    exact ⟨e, by simp [request, defaultAttempts, hr, requestBody, hst400, he]⟩
  · intro p2 s2 n
    rw [request_fst]
    exact retryGet_count_le s2 defaultRetryStatuses n 0

theorem request_retry_bound_w :
    (request (fun _ => Except.error ()) (fun _ => Outcome.resp 503 "down")
      defaultRetryStatuses defaultAttempts).1 = 5 ∧
    (∃ e, (request (fun _ => Except.error ())
      (fun _ => Outcome.resp 503 "down")
      defaultRetryStatuses defaultAttempts).2 = Except.error e) ∧
    ∀ (p2 : String → Except Unit Json) (s2 : Nat → Outcome) (n : Nat),
      (request p2 s2 defaultRetryStatuses n).1 ≤ n :=
  request_retry_bound _ _ (fun _ => ⟨503, "down", rfl, by decide⟩)

/-- C5: `get_global` (and `get_global_decentralized_finance_defi`) never
returns the value under the `data` key: line 425 subscripts the coroutine
returned by `self.__request(api_url)` before awaiting it, so every call
raises `TypeError`. This refutes the claim (code bug: the intended unwrap
needs `(await self.__request(api_url))['data']`). -/
theorem get_global_raises_type_error :
    (∀ (parse : String → Except Unit Json)
      (server : String → Nat → Outcome) (base : String)
      (kwargs : List (String × String)),
      get_global parse server base kwargs =
        Except.error PyError.typeError) ∧
    (∀ (parse : String → Except Unit Json)
      (server : String → Nat → Outcome) (base : String)
      (kwargs : List (String × String)),
      get_global_decentralized_finance_defi parse server base kwargs =
        Except.error PyError.typeError) := by
  exact ⟨fun _ _ _ _ => rfl, fun _ _ _ _ => rfl⟩

/-- C6: `ping` delegates to the executor and returns its result unchanged,
but `get_coins_list` does not: line 122 evaluates the undefined name `elf`,
so every call raises `NameError` instead of delegating. This refutes the
claim for `get_coins_list` (code bug: `elf` is a typo for `self`). -/
theorem get_coins_list_name_error :
    (∀ (parse : String → Except Unit Json)
      (server : String → Nat → Outcome) (base : String),
      ping parse server base =
        (request parse (server (base ++ "ping")) defaultRetryStatuses
          defaultAttempts).2) ∧
    (∀ (parse : String → Except Unit Json)
      (server : String → Nat → Outcome) (base : String)
      (kwargs : List (String × String)),
      get_coins_list parse server base kwargs =
        Except.error PyError.nameError) := by
  refine ⟨fun _ _ _ => rfl, fun parse server base kwargs => ?_⟩
  simp [get_coins_list, resolveName]

theorem api_fold_eq (p : String × String) (ps : List (String × String)) :
    ∀ acc : String,
      (p :: ps).foldl (fun acc q => acc ++ q.1 ++ "=" ++ q.2 ++ "&") acc =
        acc ++ joinPairs (p :: ps) ++ "&" := by
  induction ps generalizing p with
  | nil =>
    intro acc
    simp [joinPairs, String.append_assoc]
  | cons q rest ih =>
    intro acc
    rw [List.foldl_cons, ih q]
    simp [joinPairs, String.append_assoc]

theorem strDropLast_append_amp (s : String) : strDropLast (s ++ "&") = s := by
  apply String.ext
  show (s ++ "&").data.dropLast = s.data
  rw [String.data_append]
  have h1 : "&".data = ['&'] := rfl
  rw [h1]
  exact List.dropLast_concat

theorem api_url_params_eq (url : String) (params : List (String × String)) :
    api_url_params url params =
      if params.isEmpty then url else url ++ "?" ++ joinPairs params := by
  cases params with
  | nil => simp [api_url_params]
  | cons p ps =>
    simp only [api_url_params, List.isEmpty_cons, Bool.false_eq_true,
      if_false]
    rw [api_fold_eq, strDropLast_append_amp]

/-- C8: the query builder returns the base URL unchanged for an empty
mapping, and otherwise appends `?` plus the `key=value` pairs joined by `&`
in iteration order, with no trailing separator and no escaping. -/
theorem api_url_params_query_rule (url : String)
    (params : List (String × String)) :
    api_url_params url params =
      if params.isEmpty then url else url ++ "?" ++ joinPairs params :=
  api_url_params_eq url params

theorem get_price_url_concrete (b : String) :
    get_price_url b (PyArg.str ("bitcoin, ethereum")) (PyArg.str ("usd")) [] =
      b ++ "simple/price?ids=bitcoin,ethereum&vs_currencies=usd" := by
  have h1 : get_price_url b (PyArg.str ("bitcoin, ethereum"))
      (PyArg.str ("usd")) [] =
      api_url_params (b ++ "simple/price")
        [("ids", "bitcoin,ethereum"), ("vs_currencies", "usd")] := rfl
  rw [h1, api_url_params_eq]
  have h2 : joinPairs [("ids", "bitcoin,ethereum"), ("vs_currencies", "usd")]
      = "ids=bitcoin,ethereum&vs_currencies=usd" := by decide
  simp only [List.isEmpty_cons, Bool.false_eq_true, if_false, h2]
  rw [String.append_assoc, String.append_assoc]
  congr 1

/-- C7: `get_price(ids="bitcoin, ethereum", vs_currencies="usd")` issues its
request against `base_url ++ "simple/price?ids=bitcoin,ethereum&vs_currencies=usd"`:
internal whitespace is stripped from the list-like arguments, values are
comma-joined, and there is no trailing separator. -/
theorem get_price_query_construction
    (parse : String → Except Unit Json) (server : String → Nat → Outcome)
    (base : String) :
    get_price parse server base (PyArg.str ("bitcoin, ethereum"))
      (PyArg.str ("usd")) [] =
      (request parse
        (server
          (base ++ "simple/price?ids=bitcoin,ethereum&vs_currencies=usd"))
        defaultRetryStatuses defaultAttempts).2 := by
  rw [get_price, get_price_url_concrete]

theorem char_toNat_valid (c : Char) :
    c.toNat < 0xD800 ∨ (0xDFFF < c.toNat ∧ c.toNat < 0x110000) := by
  have h := c.valid
  simp only [UInt32.isValidChar, Nat.isValidChar] at h
  exact h

theorem feed_encodeChar (c : Char) (rest : List Nat) :
    feed (utf8EncodeChar c.toNat ++ rest) [] =
      (feed rest []).map (fun p => (c :: p.1, p.2)) := by
  obtain ⟨n, hn⟩ : ∃ n, c.toNat = n := ⟨_, rfl⟩
  have hv : n < 0xD800 ∨ (0xDFFF < n ∧ n < 0x110000) := hn ▸ char_toNat_valid c
  have hofn : Char.ofNat n = c := by rw [← hn]; exact Char.ofNat_toNat c
  rw [hn]
  by_cases h1 : n < 0x80
  · have he : utf8EncodeChar n = [n] := by
      unfold utf8EncodeChar; rw [if_pos h1]
    have hneed : utf8Need n = 1 := by
      unfold utf8Need; rw [if_pos h1]
    have hdc : decodeComplete [n] = some n := by
      simp only [decodeComplete]; rw [if_pos h1]
    simp [he, feed, hneed, hdc, hofn]
  · by_cases h2 : n < 0x800
    · have he : utf8EncodeChar n = [0xC0 + n / 0x40, 0x80 + n % 0x40] := by
        unfold utf8EncodeChar; rw [if_neg h1, if_pos h2]
      have hneed : utf8Need (0xC0 + n / 0x40) = 2 := by
        unfold utf8Need
        rw [if_neg (by omega), if_neg (by omega), if_pos (by omega)]
      have hdc : decodeComplete [0xC0 + n / 0x40, 0x80 + n % 0x40] =
          some n := by
        simp only [decodeComplete]
        rw [if_pos (by omega)]
        exact congrArg some (by omega)
      simp [he, feed, hneed, hdc, hofn]
    · by_cases h3 : n < 0x10000
      · have he : utf8EncodeChar n =
            [0xE0 + n / 0x1000, 0x80 + (n / 0x40) % 0x40, 0x80 + n % 0x40] := by
          unfold utf8EncodeChar; rw [if_neg h1, if_neg h2, if_pos h3]
        have hneed : utf8Need (0xE0 + n / 0x1000) = 3 := by
          unfold utf8Need
          rw [if_neg (by omega), if_neg (by omega), if_neg (by omega),
            if_pos (by omega)]
        have hdc : decodeComplete
            [0xE0 + n / 0x1000, 0x80 + (n / 0x40) % 0x40, 0x80 + n % 0x40] =
            some n := by
          simp only [decodeComplete]
          rw [if_pos (by omega)]
          exact congrArg some (by omega)
        simp [he, feed, hneed, hdc, hofn]
      · have h4 : n < 0x110000 := by omega
        have he : utf8EncodeChar n =
            [0xF0 + n / 0x40000, 0x80 + (n / 0x1000) % 0x40,
              0x80 + (n / 0x40) % 0x40, 0x80 + n % 0x40] := by
          unfold utf8EncodeChar; rw [if_neg h1, if_neg h2, if_neg h3]
        have hneed : utf8Need (0xF0 + n / 0x40000) = 4 := by
          unfold utf8Need
          rw [if_neg (by omega), if_neg (by omega), if_neg (by omega),
            if_neg (by omega), if_pos (by omega)]
        have hdc : decodeComplete
            [0xF0 + n / 0x40000, 0x80 + (n / 0x1000) % 0x40,
              0x80 + (n / 0x40) % 0x40, 0x80 + n % 0x40] = some n := by
          simp only [decodeComplete]
          rw [if_pos (by omega)]
          exact congrArg some (by omega)
        simp [he, feed, hneed, hdc, hofn]

theorem feed_append (x y : List Nat) : ∀ buf : List Nat,
    feed (x ++ y) buf =
      (feed x buf).bind
        (fun p => (feed y p.2).map (fun q => (p.1 ++ q.1, q.2))) := by
  induction x with
  | nil =>
    intro buf
    simp only [List.nil_append, feed, Option.some_bind]
    cases feed y buf with
    | none => rfl
    | some q => simp
  | cons b x2 ih =>
    intro buf
    simp only [List.cons_append, feed, List.append_eq]
    split
    · simp
    · split
      · cases hd : decodeComplete (buf ++ [b]) with
        | none => simp
        | some v =>
          simp only [ih []]
          cases hx : feed x2 [] with
          | none => simp
          | some p =>
            cases hy : feed y p.2 with
            | none => simp [hy]
            | some q => simp [hy]
      · exact ih (buf ++ [b])

theorem feed_encode (cs : List Char) :
    feed (cs.flatMap (fun c => utf8EncodeChar c.toNat)) [] =
      some (cs, []) := by
  induction cs with
  | nil => rfl
  | cons c rest ih =>
    rw [List.flatMap_cons, feed_encodeChar, ih]
    rfl

/-- C9: for every text string and every split of its UTF-8 encoding into two
chunks (including splits inside a multi-byte character), feeding the two
chunks in sequence through the incremental decoder of the
`DecodingStreamReader` succeeds on both reads (no decode error) and the
concatenated output is exactly the original string, with no replacement
characters. -/
theorem decoding_reader_chunk_split_roundtrip (s : String)
    (c1 c2 : List Nat) (h : utf8Encode s = c1 ++ c2) :
    ∃ t1 st t2, feed c1 [] = some (t1, st) ∧ feed c2 st = some (t2, []) ∧
      String.mk (t1 ++ t2) = s := by
  have h2 : feed (c1 ++ c2) [] = some (s.data, []) := by
    rw [← h]; exact feed_encode s.data
  rw [feed_append] at h2
  cases hf1 : feed c1 [] with
  | none => rw [hf1] at h2; simp at h2
  | some p =>
    obtain ⟨t1, st⟩ := p
    rw [hf1] at h2
    simp only [Option.some_bind] at h2
    cases hf2 : feed c2 st with
    | none => rw [hf2] at h2; simp at h2
    | some q =>
      obtain ⟨t2, st2⟩ := q
      rw [hf2] at h2
      simp only [Option.map_some', Option.some.injEq, Prod.mk.injEq] at h2
      obtain ⟨hcat, hst2⟩ := h2
      subst hst2
      refine ⟨t1, st, t2, rfl, hf2, ?_⟩
      rw [hcat]

theorem decoding_reader_chunk_split_roundtrip_w :
    ∃ t1 st t2, feed [97, 195] [] = some (t1, st) ∧
      feed [169] st = some (t2, []) ∧ String.mk (t1 ++ t2) = "aé" :=
  decoding_reader_chunk_split_roundtrip ("aé") [97, 195] [169] (by decide)
